import Mathlib

/-!
Shallow embedding of the three-body simulator (src/main.py) over the reals.

The numeric arrays of the source become functions out of finite index types:
a 2-D vector is Fin 2 → ℝ, the packed state vector of length 12 is
Fin 12 → ℝ (positions of the three bodies first, then their velocities),
and the masses array is Fin 3 → ℝ.  Floating point arithmetic is idealized
as real arithmetic.  The bounded trajectory deque of the renderer is
modelled as a list (oldest entry first) together with the capacity-aware
append of Python's deque(maxlen=...).
-/

/-- A 2-D vector, as numpy arrays of shape (2,) in the source. -/
abbrev Vec2 : Type := Fin 2 → ℝ

/-- The packed state vector of length 12 (main.py lines 26-27, 51):
positions of bodies 0,1,2 as (x,y) pairs, then velocities likewise. -/
abbrev StateVec : Type := Fin 12 → ℝ

/-- The gravitational constant of main.py line 18. -/
noncomputable def G : ℝ := 6.67430e-11

/-- Euclidean norm of a 2-D vector, as np.linalg.norm on shape (2,):
the square root of the sum of the squares of the components. -/
noncomputable def vnorm (v : Vec2) : ℝ := Real.sqrt (v 0 ^ 2 + v 1 ^ 2)

/-- gravitational_force of main.py lines 17-23: the force exerted on the
body at r1 by the body at r2; the zero vector when the distance is zero,
otherwise G * m1 * m2 * (r2 - r1) / r ** 3 elementwise. -/
noncomputable def gravitational_force (m1 m2 : ℝ) (r1 r2 : Vec2) : Vec2 :=
  let r := vnorm (r2 - r1)
  if r = 0 then (fun _ => 0)
  else fun c => G * m1 * m2 * (r2 c - r1 c) / r ^ 3

/-- Index of component c of body i inside the position block (state[:6]
reshaped to (3,2)). -/
def posIdx (i : Fin 3) (c : Fin 2) : Fin 12 :=
  ⟨2 * (i : ℕ) + (c : ℕ), by have := i.isLt; have := c.isLt; omega⟩

/-- Index of component c of body i inside the velocity block (state[6:]
reshaped to (3,2)). -/
def velIdx (i : Fin 3) (c : Fin 2) : Fin 12 :=
  ⟨6 + 2 * (i : ℕ) + (c : ℕ), by have := i.isLt; have := c.isLt; omega⟩

/-- Position of body i read from the state vector. -/
def pos (s : StateVec) (i : Fin 3) : Vec2 := fun c => s (posIdx i c)

/-- Velocity of body i read from the state vector. -/
def vel (s : StateVec) (i : Fin 3) : Vec2 := fun c => s (velIdx i c)

/-- The forces accumulator of main.py lines 28-33: the net force on body i,
summed over all j with i ≠ j (the i = j case is skipped by the guard). -/
noncomputable def netForce (s : StateVec) (masses : Fin 3 → ℝ) (i : Fin 3) : Vec2 :=
  ∑ j : Fin 3,
    if i ≠ j then gravitational_force (masses i) (masses j) (pos s i) (pos s j)
    else 0

/-- derivatives of main.py lines 25-38: dydt[:6] = velocities.flatten() and
dydt[6:] = (forces / masses[:, np.newaxis]).flatten().  Component 6+2i+c of
the output is netForce i at component c divided by masses[i]. -/
noncomputable def derivatives (s : StateVec) (masses : Fin 3 → ℝ) : StateVec :=
  fun k =>
    if _ : (k : ℕ) < 6 then
      s ⟨(k : ℕ) + 6, by omega⟩
    else
      netForce s masses ⟨((k : ℕ) - 6) / 2, by have := k.isLt; omega⟩
          ⟨((k : ℕ) - 6) % 2, by omega⟩ /
        masses ⟨((k : ℕ) - 6) / 2, by have := k.isLt; omega⟩

/-- runge_kutta_step of main.py lines 40-45, written elementwise exactly as
the source combines the four derivative evaluations. -/
noncomputable def runge_kutta_step (state : StateVec) (masses : Fin 3 → ℝ) (dt : ℝ) :
    StateVec :=
  let k1 : StateVec := fun i => derivatives state masses i * dt
  let k2 : StateVec := fun i => derivatives (fun j => state j + 0.5 * k1 j) masses i * dt
  let k3 : StateVec := fun i => derivatives (fun j => state j + 0.5 * k2 j) masses i * dt
  let k4 : StateVec := fun i => derivatives (fun j => state j + k3 j) masses i * dt
  fun i => state i + (k1 i + 2 * k2 i + 2 * k3 i + k4 i) / 6

/-- update_simulation of main.py lines 55-58: one RK4 step, then the
position block extracted; the pair is returned unconditionally, with no
check of the produced components and no failure path. -/
noncomputable def update_simulation (s : StateVec) (masses : Fin 3 → ℝ) (dt : ℝ) :
    StateVec × (Fin 3 → Vec2) :=
  let new_state := runge_kutta_step s masses dt
  (new_state, fun i => pos new_state i)

/-- initialize_simulation of main.py lines 47-53: no parameters, hard-coded
masses, initial state (positions flattened then velocities flattened) and
time step. -/
noncomputable def initialize_simulation : (Fin 3 → ℝ) × StateVec × ℝ :=
  (fun _ => 1.989e30,
   fun k =>
     if (k : ℕ) = 0 then 1.496e11
     else if (k : ℕ) = 2 then -1.496e11
     else if (k : ℕ) = 7 then 2.98e4
     else if (k : ℕ) = 9 then -2.98e4
     else if (k : ℕ) = 11 then 1e3
     else 0,
   2e4)

/-- max_orbit_length of main.py line 95. -/
def max_orbit_length : ℕ := 1000

/-- Append of Python's deque(maxlen = L) (main.py line 96, line 107): the
new element goes to the right; if the capacity is exceeded, elements are
discarded from the left.  The list holds oldest first. -/
def dappend {α : Type*} (L : ℕ) (q : List α) (x : α) : List α :=
  let q' := q ++ [x]
  if L < q'.length then q'.drop (q'.length - L) else q'

/-- The eviction branch of draw_simulation, main.py lines 79-80: popleft
exactly when the length exceeds max_orbit_length. -/
def draw_evict {α : Type*} (L : ℕ) (q : List α) : List α :=
  if L < q.length then q.tail else q

/-- One body's per-frame trajectory handling of the main loop (main.py
lines 104-109): the new position is appended to the deque, then
draw_simulation runs its eviction branch on it. -/
def loop_step {α : Type*} (L : ℕ) (q : List α) (x : α) : List α :=
  draw_evict L (dappend L q x)

/-- Error outcome of the initialization interface. -/
inductive InitError where
  | InvalidInput
deriving DecidableEq

/-- Interleave a list of (x, y) pairs into a flat coordinate list,
as numpy's flatten on an (N, 2) array. -/
def pack2 : List (ℝ × ℝ) → List ℝ
  | [] => []
  | p :: t => p.1 :: p.2 :: pack2 t

open Classical in
/-- Modelled from the spec: the parameterized, validating
initialize(masses, positions, velocities, dt) of spec section 6 is absent
from src/main.py (the source's initialize_simulation takes no parameters
and hard-codes valid literals), so it is modelled from the spec's words:
it fails with InvalidInput if the three sequences have mismatched lengths
or any mass ≤ 0 or dt ≤ 0 (non-finiteness of dt has no counterpart in the
real-number idealization), and otherwise packs positions then velocities
into the flat state vector. -/
noncomputable def initSim (masses : List ℝ) (positions velocities : List (ℝ × ℝ))
    (dt : ℝ) : Except InitError (List ℝ) :=
  if masses.length = positions.length ∧ masses.length = velocities.length ∧
      (∀ m ∈ masses, 0 < m) ∧ 0 < dt then
    .ok (pack2 positions ++ pack2 velocities)
  else
    .error .InvalidInput

/-! ### Helper lemmas about the norm and the force -/

lemma vnorm_eq_zero_iff (v : Vec2) : vnorm v = 0 ↔ v = 0 := by
  unfold vnorm
  rw [Real.sqrt_eq_zero']
  constructor
  · intro h
    have h0 := sq_nonneg (v 0)
    have h1 := sq_nonneg (v 1)
    have hv0 : v 0 ^ 2 = 0 := le_antisymm (by linarith) (sq_nonneg _)
    have hv1 : v 1 ^ 2 = 0 := le_antisymm (by linarith) (sq_nonneg _)
    have e0 : v 0 = 0 := (pow_eq_zero_iff (two_ne_zero)).mp hv0
    have e1 : v 1 = 0 := (pow_eq_zero_iff (two_ne_zero)).mp hv1
    funext c
    fin_cases c
    · exact e0
    · exact e1
  · intro h
    rw [h]
    simp

lemma vnorm_sub_symm (r1 r2 : Vec2) : vnorm (r1 - r2) = vnorm (r2 - r1) := by
  unfold vnorm
  congr 1
  simp only [Pi.sub_apply]
  ring

lemma vnorm_sub_ne_zero (r1 r2 : Vec2) (h : r1 ≠ r2) : vnorm (r2 - r1) ≠ 0 := by
  intro hz
  exact h ((sub_eq_zero.mp ((vnorm_eq_zero_iff _).mp hz)).symm)

/-- C3: for non-coincident positions the force is
G * m1 * m2 * (r2 - r1) / |r2 - r1|^3 componentwise (and, being a Lean
function of its four arguments, it is pure by construction). -/
theorem gravitational_force_formula (m1 m2 : ℝ) (r1 r2 : Vec2) (h : r1 ≠ r2) :
    gravitational_force m1 m2 r1 r2 =
      fun c => G * m1 * m2 * (r2 c - r1 c) / vnorm (r2 - r1) ^ 3 := by
  unfold gravitational_force
  rw [if_neg (vnorm_sub_ne_zero r1 r2 h)]

/-- Witness for C3 at the concrete positions (0,0) and (1,1). -/
theorem gravitational_force_formula_witness :
    gravitational_force 1 1 (fun _ => 0) (fun _ => 1) =
      fun c => G * 1 * 1 * ((fun _ : Fin 2 => (1 : ℝ)) c - (fun _ : Fin 2 => (0 : ℝ)) c) /
        vnorm ((fun _ => 1) - fun _ => 0) ^ 3 :=
  gravitational_force_formula 1 1 (fun _ => 0) (fun _ => 1)
    (by
      intro hc
      have h0 := congrFun hc 0
      norm_num at h0)

/-- C4: with both bodies at the same position the force is the zero
vector; the function is total, so no error is signalled. -/
theorem gravitational_force_coincident (m1 m2 : ℝ) (r : Vec2) :
    gravitational_force m1 m2 r r = fun _ => 0 := by
  unfold gravitational_force
  rw [if_pos]
  rw [sub_self]
  show Real.sqrt ((0 : Vec2) 0 ^ 2 + (0 : Vec2) 1 ^ 2) = 0
  simp

/-- C5: Newton's third law, Force(i,j) = -Force(j,i), for non-coincident
positions. -/
theorem gravitational_force_antisymm (m1 m2 : ℝ) (r1 r2 : Vec2) (h : r1 ≠ r2) :
    gravitational_force m1 m2 r1 r2 = -gravitational_force m2 m1 r2 r1 := by
  unfold gravitational_force
  rw [if_neg (vnorm_sub_ne_zero r1 r2 h)]
  rw [if_neg (vnorm_sub_ne_zero r2 r1 (Ne.symm h))]
  rw [vnorm_sub_symm r1 r2]
  funext c
  simp only [Pi.neg_apply]
  ring

/-- Witness for C5 at the concrete positions (0,0) and (1,1). -/
theorem gravitational_force_antisymm_witness :
    gravitational_force 2 3 (fun _ => 0) (fun _ => 1) =
      -gravitational_force 3 2 (fun _ => 1) (fun _ => 0) :=
  gravitational_force_antisymm 2 3 (fun _ => 0) (fun _ => 1)
    (by
      intro hc
      have h0 := congrFun hc 0
      norm_num at h0)

/-! ### The RK4 step in vector form -/

lemma half_step (s d : StateVec) (dt : ℝ) :
    (fun j => s j + 0.5 * (d j * dt)) = s + (1 / 2 : ℝ) • (dt • d) := by
  funext j
  simp only [Pi.add_apply, Pi.smul_apply, smul_eq_mul]
  ring

lemma full_step (s d : StateVec) (dt : ℝ) :
    (fun j => s j + d j * dt) = s + dt • d := by
  funext j
  simp only [Pi.add_apply, Pi.smul_apply, smul_eq_mul]
  ring

lemma runge_kutta_step_eq (s : StateVec) (m : Fin 3 → ℝ) (dt : ℝ) :
    runge_kutta_step s m dt =
      s + (1 / 6 : ℝ) •
        (dt • derivatives s m
          + (2 : ℝ) • (dt • derivatives (s + (1 / 2 : ℝ) • (dt • derivatives s m)) m)
          + (2 : ℝ) • (dt • derivatives
              (s + (1 / 2 : ℝ) •
                (dt • derivatives (s + (1 / 2 : ℝ) • (dt • derivatives s m)) m)) m)
          + dt • derivatives
              (s + dt • derivatives
                (s + (1 / 2 : ℝ) •
                  (dt • derivatives (s + (1 / 2 : ℝ) • (dt • derivatives s m)) m)) m) m) := by
  simp only [runge_kutta_step]
  rw [half_step s (derivatives s m) dt]
  rw [half_step s (derivatives (s + (1 / 2 : ℝ) • (dt • derivatives s m)) m) dt]
  rw [full_step s
    (derivatives
      (s + (1 / 2 : ℝ) •
        (dt • derivatives (s + (1 / 2 : ℝ) • (dt • derivatives s m)) m)) m) dt]
  funext i
  simp only [Pi.add_apply, Pi.smul_apply, smul_eq_mul]
  ring

/-- C1: the RK4 stepper returns s + (k1 + 2*k2 + 2*k3 + k4)/6 with
k1 = f(s)*dt, k2 = f(s + k1/2)*dt, k3 = f(s + k2/2)*dt, k4 = f(s + k3)*dt,
f being the derivative function. -/
theorem runge_kutta_step_formula (s : StateVec) (m : Fin 3 → ℝ) (dt : ℝ)
    (k1 k2 k3 k4 : StateVec)
    (h1 : k1 = dt • derivatives s m)
    (h2 : k2 = dt • derivatives (s + (1 / 2 : ℝ) • k1) m)
    (h3 : k3 = dt • derivatives (s + (1 / 2 : ℝ) • k2) m)
    (h4 : k4 = dt • derivatives (s + k3) m) :
    runge_kutta_step s m dt =
      s + (1 / 6 : ℝ) • (k1 + (2 : ℝ) • k2 + (2 : ℝ) • k3 + k4) := by
  subst h1
  subst h2
  subst h3
  subst h4
  exact runge_kutta_step_eq s m dt

/-- Witness for C1 at the zero state, unit masses, dt = 1. -/
theorem runge_kutta_step_formula_witness :
    runge_kutta_step (fun _ => 0) (fun _ => 1) 1 =
      (fun _ => 0) + (1 / 6 : ℝ) •
        ((1 : ℝ) • derivatives (fun _ => 0) (fun _ => 1)
          + (2 : ℝ) • ((1 : ℝ) • derivatives
              ((fun _ => 0) + (1 / 2 : ℝ) • ((1 : ℝ) • derivatives (fun _ => 0) (fun _ => 1)))
              (fun _ => 1))
          + (2 : ℝ) • ((1 : ℝ) • derivatives
              ((fun _ => 0) + (1 / 2 : ℝ) •
                ((1 : ℝ) • derivatives
                  ((fun _ => 0) + (1 / 2 : ℝ) •
                    ((1 : ℝ) • derivatives (fun _ => 0) (fun _ => 1)))
                  (fun _ => 1)))
              (fun _ => 1))
          + (1 : ℝ) • derivatives
              ((fun _ => 0) + (1 : ℝ) • derivatives
                ((fun _ => 0) + (1 / 2 : ℝ) •
                  ((1 : ℝ) • derivatives
                    ((fun _ => 0) + (1 / 2 : ℝ) •
                      ((1 : ℝ) • derivatives (fun _ => 0) (fun _ => 1)))
                    (fun _ => 1)))
                (fun _ => 1))
              (fun _ => 1)) :=
  runge_kutta_step_formula (fun _ => 0) (fun _ => 1) 1 _ _ _ _ rfl rfl rfl rfl

/-- C6: the step is deterministic — equal inputs give equal outputs; the
embedded step is a pure function of (state, masses, dt). -/
theorem runge_kutta_step_deterministic (s1 s2 : StateVec) (m1 m2 : Fin 3 → ℝ)
    (dt1 dt2 : ℝ) (hs : s1 = s2) (hm : m1 = m2) (hdt : dt1 = dt2) :
    runge_kutta_step s1 m1 dt1 = runge_kutta_step s2 m2 dt2 := by
  subst hs
  subst hm
  subst hdt
  rfl

/-- Witness for C6: two invocations on the same concrete triple agree. -/
theorem runge_kutta_step_deterministic_witness :
    runge_kutta_step (fun _ => 0) (fun _ => 1) 1 =
      runge_kutta_step (fun _ => 0) (fun _ => 1) 1 :=
  runge_kutta_step_deterministic (fun _ => 0) (fun _ => 0) (fun _ => 1) (fun _ => 1) 1 1
    rfl rfl rfl

/-! ### The derivative function's layout -/

lemma derivatives_posIdx (s : StateVec) (m : Fin 3 → ℝ) (i : Fin 3) (c : Fin 2) :
    derivatives s m (posIdx i c) = s (velIdx i c) := by
  fin_cases i <;> fin_cases c <;> rfl

lemma derivatives_velIdx (s : StateVec) (m : Fin 3 → ℝ) (i : Fin 3) (c : Fin 2) :
    derivatives s m (velIdx i c) = netForce s m i c / m i := by
  fin_cases i <;> fin_cases c <;> rfl

/-- C2: the first six components of the derivative are the velocity block
of the input, and component (6 + 2i + c) is the net force on body i —
the sum of Force(i,j) over the ordered pairs with j ≠ i, the pair i = j
contributing nothing — divided by mass i. -/
theorem derivatives_layout (s : StateVec) (m : Fin 3 → ℝ) (i : Fin 3) (c : Fin 2)
    (_hm : ∀ b, 0 < m b) :
    derivatives s m (posIdx i c) = vel s i c ∧
    derivatives s m (velIdx i c) =
      (∑ j ∈ Finset.univ.filter (fun j => j ≠ i),
        gravitational_force (m i) (m j) (pos s i) (pos s j) c) / m i := by
  constructor
  · exact derivatives_posIdx s m i c
  · rw [derivatives_velIdx]
    congr 1
    rw [netForce, Finset.sum_apply, Finset.sum_filter]
    apply Finset.sum_congr rfl
    intro j _
    rcases eq_or_ne i j with h | h
    · subst h
      simp
    · rw [if_pos h, if_pos (Ne.symm h)]

/-- Witness for C2 at the zero state and unit masses, body 0, component 0. -/
theorem derivatives_layout_witness :
    derivatives (fun _ => 0) (fun _ => 1) (posIdx 0 0) = vel (fun _ => 0) 0 0 ∧
    derivatives (fun _ => 0) (fun _ => 1) (velIdx 0 0) =
      (∑ j ∈ Finset.univ.filter (fun j => j ≠ (0 : Fin 3)),
        gravitational_force 1 1 (pos (fun _ => 0) 0) (pos (fun _ => 0) j) 0) / 1 :=
  derivatives_layout (fun _ => 0) (fun _ => 1) 0 0 (fun _ => one_pos)

/-! ### The bounded trajectory deque -/

lemma dappend_eq_drop {α : Type*} (L : ℕ) (q : List α) (x : α) (_h : q.length ≤ L) :
    dappend L q x = (q ++ [x]).drop (q.length + 1 - L) := by
  simp only [dappend]
  by_cases hL : L < (q ++ [x]).length
  · rw [if_pos hL]
    congr 1
    simp only [List.length_append, List.length_singleton]
  · rw [if_neg hL]
    simp only [List.length_append, List.length_singleton] at hL
    have h0 : q.length + 1 - L = 0 := by omega
    rw [h0, List.drop_zero]

lemma dappend_length_le {α : Type*} (L : ℕ) (q : List α) (x : α) (h : q.length ≤ L) :
    (dappend L q x).length ≤ L := by
  rw [dappend_eq_drop L q x h, List.length_drop]
  simp only [List.length_append, List.length_singleton]
  omega

lemma foldl_dappend_eq_drop {α : Type*} (L : ℕ) :
    ∀ (xs q : List α), q.length ≤ L →
      List.foldl (dappend L) q xs = (q ++ xs).drop (q.length + xs.length - L) := by
  intro xs
  induction xs with
  | nil =>
    intro q h
    simp only [List.foldl_nil, List.append_nil, List.length_nil, Nat.add_zero]
    rw [Nat.sub_eq_zero_of_le h, List.drop_zero]
  | cons x t ih =>
    intro q h
    rw [List.foldl_cons]
    have hd : dappend L q x = (q ++ [x]).drop (q.length + 1 - L) := dappend_eq_drop L q x h
    have hlen : (dappend L q x).length ≤ L := dappend_length_le L q x h
    rw [ih _ hlen, hd, List.length_drop]
    rw [← List.drop_append_of_le_length
      (by simp only [List.length_append, List.length_singleton]; omega)]
    rw [List.drop_drop, List.append_assoc, List.singleton_append]
    congr 1
    simp only [List.length_append, List.length_singleton, List.length_cons,
      List.length_nil]
    omega

lemma foldl_dappend_length_le {α : Type*} (L : ℕ) (xs q : List α) (h : q.length ≤ L) :
    (List.foldl (dappend L) q xs).length ≤ L := by
  rw [foldl_dappend_eq_drop L xs q h, List.length_drop]
  simp only [List.length_append]
  omega

lemma draw_evict_of_le {α : Type*} (L : ℕ) (q : List α) (h : q.length ≤ L) :
    draw_evict L q = q := by
  unfold draw_evict
  rw [if_neg (Nat.not_lt.mpr h)]

lemma foldl_loop_step_eq {α : Type*} (L : ℕ) :
    ∀ (xs q : List α), q.length ≤ L →
      List.foldl (loop_step L) q xs = List.foldl (dappend L) q xs := by
  intro xs
  induction xs with
  | nil => intro q _; rfl
  | cons x t ih =>
    intro q h
    rw [List.foldl_cons, List.foldl_cons]
    have hlen : (dappend L q x).length ≤ L := dappend_length_le L q x h
    have h2 : loop_step L q x = dappend L q x := draw_evict_of_le L _ hlen
    rw [h2]
    exact ih _ hlen

/-- C7: appending max_orbit_length + k positions (k > 0) into an empty
bounded deque leaves exactly the last max_orbit_length appended positions,
in append order. -/
theorem trajectory_fifo (xs : List Vec2) (k : ℕ) (hk : 0 < k)
    (hlen : xs.length = max_orbit_length + k) :
    (List.foldl (dappend max_orbit_length) [] xs).length = max_orbit_length ∧
    List.foldl (dappend max_orbit_length) [] xs = xs.drop k := by
  have h := foldl_dappend_eq_drop max_orbit_length xs [] (by simp)
  simp only [List.nil_append, List.length_nil, Nat.zero_add] at h
  have e : xs.length - max_orbit_length = k := by omega
  constructor
  · rw [h, List.length_drop]
    omega
  · rw [h, e]

/-- Witness for C7: 1001 appends into a deque of capacity 1000. -/
theorem trajectory_fifo_witness :
    (List.foldl (dappend max_orbit_length) []
        (List.replicate 1001 ((fun _ => 0) : Vec2))).length = max_orbit_length ∧
    List.foldl (dappend max_orbit_length) [] (List.replicate 1001 ((fun _ => 0) : Vec2)) =
      (List.replicate 1001 ((fun _ => 0) : Vec2)).drop 1 :=
  trajectory_fifo (List.replicate 1001 (fun _ => 0)) 1 one_pos
    (by rw [List.length_replicate, max_orbit_length])

/-- C10: the deque, being capacity-bounded at max_orbit_length, never has
length above max_orbit_length after any sequence of per-frame steps, so
the eviction branch of draw_simulation never fires: the loop with that
branch computes the same deque as plain bounded appends. -/
theorem trajectory_evict_unreachable (xs : List Vec2) :
    (List.foldl (loop_step max_orbit_length) [] xs).length ≤ max_orbit_length ∧
    List.foldl (loop_step max_orbit_length) [] xs =
      List.foldl (dappend max_orbit_length) [] xs := by
  have he := foldl_loop_step_eq max_orbit_length xs [] (by simp)
  refine ⟨?_, he⟩
  rw [he]
  exact foldl_dappend_length_le max_orbit_length xs [] (by simp)

/-! ### Error handling -/

/-- C8 (code evidence): update_simulation of main.py lines 55-58 returns
the stepped state and its position block unconditionally — it contains no
finiteness check and no failure outcome of any kind. -/
theorem update_simulation_unconditional (s : StateVec) (m : Fin 3 → ℝ) (dt : ℝ) :
    update_simulation s m dt =
      (runge_kutta_step s m dt, fun i => pos (runge_kutta_step s m dt) i) := rfl

/-- C9: the (spec-modelled) initializer rejects mismatched sequence
lengths, non-positive masses and non-positive time steps with
InvalidInput, producing no state. -/
theorem initSim_invalid (ms : List ℝ) (ps vs : List (ℝ × ℝ)) (dt : ℝ)
    (h : ms.length ≠ ps.length ∨ ms.length ≠ vs.length ∨
      (∃ m ∈ ms, m ≤ 0) ∨ dt ≤ 0) :
    initSim ms ps vs dt = .error .InvalidInput := by
  unfold initSim
  rw [if_neg]
  rintro ⟨hA, hB, hC, hD⟩
  rcases h with h | h | ⟨m, hm, hle⟩ | h
  · exact h hA
  · exact h hB
  · exact absurd (hC m hm) (not_lt.mpr hle)
  · exact absurd hD (not_lt.mpr h)

/-- Witness for C9: a negative mass is rejected. -/
theorem initSim_invalid_witness :
    initSim [(-1 : ℝ)] [((0 : ℝ), (0 : ℝ))] [((0 : ℝ), (0 : ℝ))] 1 =
      .error .InvalidInput :=
  initSim_invalid _ _ _ _ (Or.inr (Or.inr (Or.inl ⟨-1, by simp, by norm_num⟩)))
